import Mathlib

/-!
Shallow embedding of the prescription-fulfillment core of
`src/server/src/handlers/prescriptions.ts`, over the tables declared in
`src/server/src/db/schema.ts`.

The database is a record of lists of rows; each handler is a pure function
threading that state explicitly and returning `Except Err α` together with
the state as left behind when the handler returns or throws (mutations
performed before a throw remain, matching the absence of transactions in
the source).  Only the columns the embedded handlers read or write are
kept: row ids, the doctor role, `stock_quantity`, prescription
`status`/`patient_id`/`doctor_id`/`notes`, and the prescription-item
quantities; unread metadata columns (names, timestamps, prices, …) are
omitted.  Machine integers are modelled as `Int` (quantities, stock) and
`Nat` (serial ids).
-/

namespace Clinic

/-- Embeds `userRoleEnum` of `db/schema.ts`. -/
inductive Role
  | admin
  | doctor
  | cashier
deriving DecidableEq, Repr

/-- Embeds `prescriptionStatusEnum` of `db/schema.ts`. -/
inductive PrescriptionStatus
  | pending
  | filled
  | partially_filled
deriving DecidableEq, Repr

/-- A row of `usersTable` (columns the handlers read). -/
structure User where
  id : Nat
  role : Role
deriving DecidableEq, Repr

/-- A row of `patientsTable` (columns the handlers read). -/
structure Patient where
  id : Nat
deriving DecidableEq, Repr

/-- A row of `medicinesTable` (columns the handlers read or write). -/
structure Medicine where
  id : Nat
  stock_quantity : Int
deriving DecidableEq, Repr

/-- A row of `prescriptionsTable` (columns the handlers read or write). -/
structure Prescription where
  id : Nat
  patient_id : Nat
  doctor_id : Nat
  status : PrescriptionStatus
  notes : Option String
deriving DecidableEq, Repr

/-- A row of `prescriptionItemsTable` (columns the handlers read or write). -/
structure PrescriptionItem where
  id : Nat
  prescription_id : Nat
  medicine_id : Nat
  quantity_prescribed : Int
  quantity_filled : Int
  dosage_instructions : Option String
deriving DecidableEq, Repr

/-- The relational store: one list of rows per table, plus the serial-id
counters that generate primary keys on insert. -/
structure DB where
  users : List User
  patients : List Patient
  medicines : List Medicine
  prescriptions : List Prescription
  prescriptionItems : List PrescriptionItem
  nextPrescriptionId : Nat
  nextItemId : Nat
deriving DecidableEq, Repr

/-- The typed failures the handlers throw (`throw new Error(...)` sites of
`prescriptions.ts`, one constructor per distinct message shape). -/
inductive Err
  | patientNotFound (id : Nat)
  | doctorNotFound (id : Nat)
  | medicineNotFound (id : Nat)
  | insufficientStock (medicineId : Nat) (available requested : Int)
  | prescriptionNotFound (id : Nat)
  | itemNotFound (id : Nat)
  | overfill (prescribed alreadyFilled attempted : Int)
deriving DecidableEq, Repr

/-- `db.select().from(patientsTable).where(eq(patientsTable.id, pid))`,
first row. -/
def findPatient (db : DB) (pid : Nat) : Option Patient :=
  db.patients.find? (fun p => p.id == pid)

/-- `db.select().from(usersTable).where(and(eq(usersTable.id, did),
eq(usersTable.role, 'doctor')))`, first row. -/
def findDoctor (db : DB) (did : Nat) : Option User :=
  db.users.find? (fun u => u.id == did && u.role == Role.doctor)

/-- `db.select().from(medicinesTable).where(eq(medicinesTable.id, mid))`,
first row. -/
def findMedicine (db : DB) (mid : Nat) : Option Medicine :=
  db.medicines.find? (fun m => m.id == mid)

/-- `db.select().from(prescriptionsTable).where(eq(prescriptionsTable.id, pid))`,
first row. -/
def findPrescription (db : DB) (pid : Nat) : Option Prescription :=
  db.prescriptions.find? (fun p => p.id == pid)

/-- `db.select().from(prescriptionItemsTable).where(eq(prescriptionItemsTable.id, iid))`,
first row. -/
def findPrescriptionItem (db : DB) (iid : Nat) : Option PrescriptionItem :=
  db.prescriptionItems.find? (fun it => it.id == iid)

/-- `db.select().from(prescriptionItemsTable)
.where(eq(prescriptionItemsTable.prescription_id, pid))`. -/
def itemsOfPrescription (db : DB) (pid : Nat) : List PrescriptionItem :=
  db.prescriptionItems.filter (fun it => it.prescription_id == pid)

/-- One element of `CreatePrescriptionInput.items`
(`createPrescriptionInputSchema` of `schema.ts`). -/
structure PrescriptionItemInput where
  medicine_id : Nat
  quantity_prescribed : Int
  dosage_instructions : Option String
deriving DecidableEq, Repr

/-- Embeds `CreatePrescriptionInput` of `schema.ts`. -/
structure CreatePrescriptionInput where
  patient_id : Nat
  doctor_id : Nat
  notes : Option String
  items : List PrescriptionItemInput
deriving DecidableEq, Repr

/-- Embeds `UpdatePrescriptionStatusInput` of `schema.ts`. -/
structure UpdatePrescriptionStatusInput where
  id : Nat
  status : PrescriptionStatus
deriving DecidableEq, Repr

/-- The stock-validation loop of `createPrescription`
(`prescriptions.ts` lines 29–43): first failing item's error, scanning the
unmutated store. -/
def checkItems (db : DB) : List PrescriptionItemInput → Option Err
  | [] => none
  | item :: rest =>
    match findMedicine db item.medicine_id with
    | none => some (Err.medicineNotFound item.medicine_id)
    | some m =>
      if m.stock_quantity < item.quantity_prescribed then
        some (Err.insufficientStock item.medicine_id m.stock_quantity
          item.quantity_prescribed)
      else checkItems db rest

/-- `db.update(medicinesTable).set({stock_quantity: stock - q})
.where(eq(medicinesTable.id, mid))` (`prescriptions.ts` lines 71–77). -/
def decrementStock (db : DB) (mid : Nat) (q : Int) : DB :=
  { db with medicines := db.medicines.map (fun m =>
      if m.id == mid then { m with stock_quantity := m.stock_quantity - q }
      else m) }

/-- The insert-items-and-decrement-stock loop of `createPrescription`
(`prescriptions.ts` lines 59–78): per item, insert the row with
`quantity_filled: 0` and a generated serial id, then decrement the
medicine's stock. -/
def insertItemsLoop (pid : Nat) : List PrescriptionItemInput → DB → DB
  | [], db => db
  | item :: rest, db =>
    let newItem : PrescriptionItem :=
      { id := db.nextItemId
        prescription_id := pid
        medicine_id := item.medicine_id
        quantity_prescribed := item.quantity_prescribed
        quantity_filled := 0
        dosage_instructions := item.dosage_instructions }
    let db1 : DB :=
      { db with prescriptionItems := db.prescriptionItems ++ [newItem]
                nextItemId := db.nextItemId + 1 }
    insertItemsLoop pid rest (decrementStock db1 item.medicine_id item.quantity_prescribed)

/-- Embeds `createPrescription` (`prescriptions.ts` lines 7–85): verify the
patient, the doctor (with the doctor role), then every item's medicine and
stock, all before any mutation; then insert the prescription with status
`pending` and run the item/stock loop. -/
def createPrescription (input : CreatePrescriptionInput) (db : DB) :
    Except Err Prescription × DB :=
  match findPatient db input.patient_id with
  | none => (Except.error (Err.patientNotFound input.patient_id), db)
  | some _ =>
    match findDoctor db input.doctor_id with
    | none => (Except.error (Err.doctorNotFound input.doctor_id), db)
    | some _ =>
      match checkItems db input.items with
      | some e => (Except.error e, db)
      | none =>
        let p : Prescription :=
          { id := db.nextPrescriptionId
            patient_id := input.patient_id
            doctor_id := input.doctor_id
            status := PrescriptionStatus.pending
            notes := input.notes }
        let db1 : DB :=
          { db with prescriptions := db.prescriptions ++ [p]
                    nextPrescriptionId := db.nextPrescriptionId + 1 }
        (Except.ok p, insertItemsLoop p.id input.items db1)

/-- Embeds `getPrescriptionById` (`prescriptions.ts` lines 102–128): `none`
when the id has no row, else the row with its items. -/
def getPrescriptionById (id : Nat) (db : DB) :
    Option (Prescription × List PrescriptionItem) :=
  match findPrescription db id with
  | none => none
  | some p => some (p, itemsOfPrescription db id)

/-- `db.update(prescriptionsTable).set({status: st})
.where(eq(prescriptionsTable.id, pid))` (`prescriptions.ts` lines 163–170
and 240–246). -/
def setPrescriptionStatusRow (db : DB) (pid : Nat) (st : PrescriptionStatus) : DB :=
  { db with prescriptions := db.prescriptions.map (fun p =>
      if p.id == pid then { p with status := st } else p) }

/-- `db.update(prescriptionItemsTable).set({quantity_filled: newQ})
.where(eq(prescriptionItemsTable.id, itemId))` (`prescriptions.ts` lines
204–210). -/
def setItemFilledRow (db : DB) (itemId : Nat) (newQ : Int) : DB :=
  { db with prescriptionItems := db.prescriptionItems.map (fun it =>
      if it.id == itemId then { it with quantity_filled := newQ } else it) }

/-- Embeds `updatePrescriptionStatus` (`prescriptions.ts` lines 161–181):
update-where with returning, then `NotFound` if no row was returned. -/
def updatePrescriptionStatus (input : UpdatePrescriptionStatusInput) (db : DB) :
    Except Err Prescription × DB :=
  let db1 := setPrescriptionStatusRow db input.id input.status
  match db1.prescriptions.filter (fun p => p.id == input.id) with
  | [] => (Except.error (Err.prescriptionNotFound input.id), db1)
  | p :: _ => (Except.ok p, db1)

/-- The status recomputation loop of `fillPrescriptionItem`
(`prescriptions.ts` lines 218–237): scan rows, substituting `newQ` for rows
with the filled item's id; `filled` when no row is below its prescribed
quantity, else `partially_filled` when some row is positive, else
`pending`. -/
def fillStatusScan (itemId : Nat) (newQ : Int)
    (allItems : List PrescriptionItem) : PrescriptionStatus :=
  let allFilled := allItems.all (fun it =>
    decide (it.quantity_prescribed ≤
      (if it.id == itemId then newQ else it.quantity_filled)))
  let anyFilled := allItems.any (fun it =>
    decide (0 < (if it.id == itemId then newQ else it.quantity_filled)))
  if allFilled then PrescriptionStatus.filled
  else if anyFilled then PrescriptionStatus.partially_filled
  else PrescriptionStatus.pending

/-- Embeds `fillPrescriptionItem` (`prescriptions.ts` lines 184–253): load
the item (`NotFound` if absent), reject overfill, persist the new filled
quantity, then recompute and persist the owning prescription's status. -/
def fillPrescriptionItem (itemId : Nat) (quantityFilled : Int) (db : DB) :
    Except Err PrescriptionItem × DB :=
  match findPrescriptionItem db itemId with
  | none => (Except.error (Err.itemNotFound itemId), db)
  | some item =>
    let newQuantityFilled := item.quantity_filled + quantityFilled
    if item.quantity_prescribed < newQuantityFilled then
      (Except.error (Err.overfill item.quantity_prescribed item.quantity_filled
        quantityFilled), db)
    else
      let db1 := setItemFilledRow db itemId newQuantityFilled
      let newStatus :=
        fillStatusScan itemId newQuantityFilled
          (itemsOfPrescription db1 item.prescription_id)
      (Except.ok { item with quantity_filled := newQuantityFilled },
        setPrescriptionStatusRow db1 item.prescription_id newStatus)

/-- The spec's derived prescription status (§4.2/§8 of the specification):
`filled` iff every item has `quantity_filled == quantity_prescribed`, else
`partially_filled` iff some item has `quantity_filled > 0`, else
`pending`. -/
def derivedStatus (items : List PrescriptionItem) : PrescriptionStatus :=
  if items.all (fun it => it.quantity_filled == it.quantity_prescribed) then
    PrescriptionStatus.filled
  else if items.any (fun it => decide (0 < it.quantity_filled)) then
    PrescriptionStatus.partially_filled
  else PrescriptionStatus.pending

/-- The stock column of the first medicine row with the given id. -/
def stockOf (db : DB) (mid : Nat) : Option Int :=
  (findMedicine db mid).map Medicine.stock_quantity

/-- Total quantity prescribed for one medicine across a creation input's
items. -/
def totalPrescribed (mid : Nat) : List PrescriptionItemInput → Int
  | [] => 0
  | it :: rest =>
    (if it.medicine_id == mid then it.quantity_prescribed else 0) +
      totalPrescribed mid rest

/-- The rows the item/stock loop inserts: one per input item, ids serial
from `nid`, `quantity_filled = 0`. -/
def mkItems (pid : Nat) : Nat → List PrescriptionItemInput → List PrescriptionItem
  | _, [] => []
  | nid, item :: rest =>
    { id := nid
      prescription_id := pid
      medicine_id := item.medicine_id
      quantity_prescribed := item.quantity_prescribed
      quantity_filled := 0
      dosage_instructions := item.dosage_instructions } :: mkItems pid (nid + 1) rest

/-- Run a sequence of `fillPrescriptionItem` calls against one item,
keeping the state each call leaves behind (a failed call leaves the state
unchanged, so the trace of the successful calls is the same). -/
def runFills (itemId : Nat) : List Int → DB → DB
  | [], db => db
  | q :: qs, db => runFills itemId qs (fillPrescriptionItem itemId q db).2

/-- The create-time failures: every error `createPrescription` can throw is
a not-found or an insufficient-stock failure. -/
def Err.isNotFoundOrStock : Err → Bool
  | Err.patientNotFound _ => true
  | Err.doctorNotFound _ => true
  | Err.medicineNotFound _ => true
  | Err.insufficientStock _ _ _ => true
  | _ => false

/-- Fixture: an empty store with one patient, one doctor, one cashier and
two stocked medicines (the spec's Scenario A quantities). -/
def sampleDB : DB :=
  { users := [⟨2, Role.doctor⟩, ⟨3, Role.cashier⟩]
    patients := [⟨1⟩]
    medicines := [⟨1, 100⟩, ⟨2, 50⟩]
    prescriptions := []
    prescriptionItems := []
    nextPrescriptionId := 1
    nextItemId := 1 }

/-- Fixture: Scenario A's creation input (10 of medicine 1, 5 of
medicine 2). -/
def sampleInput : CreatePrescriptionInput :=
  { patient_id := 1, doctor_id := 2, notes := none
    items := [⟨1, 10, none⟩, ⟨2, 5, none⟩] }

/-- Fixture: the store after Scenario A's creation succeeded. -/
def sampleFilledDB : DB := (createPrescription sampleInput sampleDB).2

/-- Fixture: a creation input naming the same medicine twice, each line
within stock on its own but not jointly. -/
def dupInput : CreatePrescriptionInput :=
  { patient_id := 1, doctor_id := 2, notes := none
    items := [⟨1, 60, none⟩, ⟨1, 60, none⟩] }

/-- Fixture: a creation input requesting more of medicine 1 than its
stock. -/
def badStockInput : CreatePrescriptionInput :=
  { patient_id := 1, doctor_id := 2, notes := none
    items := [⟨1, 200, none⟩] }

/-- Fixture: a creation input naming a patient id with no row. -/
def noPatientInput : CreatePrescriptionInput :=
  { patient_id := 99, doctor_id := 2, notes := none, items := [] }

/-- Fixture: a creation input whose doctor id names the cashier. -/
def cashierDoctorInput : CreatePrescriptionInput :=
  { patient_id := 1, doctor_id := 3, notes := none, items := [⟨1, 1, none⟩] }

/-- Fixture: one pending prescription whose single item is prescribed 5 and
filled 0. -/
def pendingDB : DB :=
  { users := [⟨2, Role.doctor⟩]
    patients := [⟨1⟩]
    medicines := [⟨1, 10⟩]
    prescriptions := [⟨1, 1, 2, PrescriptionStatus.pending, none⟩]
    prescriptionItems := [⟨1, 1, 1, 5, 0, none⟩]
    nextPrescriptionId := 2
    nextItemId := 2 }

end Clinic

section ListLemmas

variable {α : Type}

/-- An update-where keyed on an id the update preserves: searching the
updated table for that id finds the updated image of what the search found
before. -/
theorem find?_map_upd_self (idf : α → Nat) (g : α → α)
    (hg : ∀ a, idf (g a) = idf a) (n : Nat) (l : List α) :
    (l.map (fun a => if idf a == n then g a else a)).find? (fun a => idf a == n)
      = (l.find? (fun a => idf a == n)).map g := by
  induction l with
  | nil => rfl
  | cons a l ih =>
    simp only [List.map_cons]
    by_cases h : idf a = n
    · have hb : (idf a == n) = true := beq_iff_eq.mpr h
      have hgb : (idf (g a) == n) = true := beq_iff_eq.mpr (by rw [hg]; exact h)
      rw [if_pos hb]
      simp only [List.find?, hgb, hb, Option.map_some']
    · have hb : (idf a == n) = false := beq_eq_false_iff_ne.mpr h
      rw [if_neg (by simp [hb])]
      simp only [List.find?, hb]
      exact ih

/-- An update-where keyed on one id leaves searches for any other id
unchanged. -/
theorem find?_map_upd_other (idf : α → Nat) (g : α → α)
    (hg : ∀ a, idf (g a) = idf a) (n k : Nat) (hkn : k ≠ n) (l : List α) :
    (l.map (fun a => if idf a == n then g a else a)).find? (fun a => idf a == k)
      = l.find? (fun a => idf a == k) := by
  induction l with
  | nil => rfl
  | cons a l ih =>
    simp only [List.map_cons]
    by_cases h : idf a = n
    · have hb : (idf a == n) = true := beq_iff_eq.mpr h
      have hk : (idf a == k) = false :=
        beq_eq_false_iff_ne.mpr (by rw [h]; exact fun e => hkn e.symm)
      have hgk : (idf (g a) == k) = false := by rw [hg]; exact hk
      rw [if_pos hb]
      simp only [List.find?, hgk, hk]
      exact ih
    · have hb : (idf a == n) = false := beq_eq_false_iff_ne.mpr h
      by_cases h2 : idf a = k
      · have hk : (idf a == k) = true := beq_iff_eq.mpr h2
        rw [if_neg (by simp [hb])]
        simp only [List.find?, hk]
      · have hk : (idf a == k) = false := beq_eq_false_iff_ne.mpr h2
        rw [if_neg (by simp [hb])]
        simp only [List.find?, hk]
        exact ih

/-- Filtering commutes with a row update that does not move rows across the
filter. -/
theorem filter_map_comm (f : α → α) (q : α → Bool)
    (h : ∀ a, q (f a) = q a) (l : List α) :
    (l.map f).filter q = (l.filter q).map f := by
  induction l with
  | nil => rfl
  | cons a l ih =>
    simp only [List.map_cons, List.filter_cons, h a]
    cases hq : q a <;> simp [ih]

/-- Searching past a prefix of rows that all fail the predicate. -/
theorem find?_append_of_all_neg (p : α → Bool) (l₁ l₂ : List α)
    (h : ∀ a ∈ l₁, p a = false) : (l₁ ++ l₂).find? p = l₂.find? p := by
  induction l₁ with
  | nil => rfl
  | cons a l ih =>
    rw [List.cons_append]
    simp only [List.find?, h a (List.mem_cons_self a l)]
    exact ih (fun b hb => h b (List.mem_cons_of_mem a hb))

/-- A row update that fixes every row of the table is the identity. -/
theorem map_eq_self_of_mem (f : α → α) (l : List α) (h : ∀ a ∈ l, f a = a) :
    l.map f = l := by
  induction l with
  | nil => rfl
  | cons a l ih =>
    simp only [List.map_cons, h a (List.mem_cons_self a l)]
    rw [ih (fun b hb => h b (List.mem_cons_of_mem a hb))]

/-- `List.all` only looks at the predicate's values on members. -/
theorem all_congr_mem (p q : α → Bool) (l : List α) (h : ∀ a ∈ l, p a = q a) :
    l.all p = l.all q := by
  induction l with
  | nil => rfl
  | cons a l ih =>
    simp only [List.all_cons, h a (List.mem_cons_self a l),
      ih (fun b hb => h b (List.mem_cons_of_mem a hb))]

/-- `List.any` only looks at the predicate's values on members. -/
theorem any_congr_mem (p q : α → Bool) (l : List α) (h : ∀ a ∈ l, p a = q a) :
    l.any p = l.any q := by
  induction l with
  | nil => rfl
  | cons a l ih =>
    simp only [List.any_cons, h a (List.mem_cons_self a l),
      ih (fun b hb => h b (List.mem_cons_of_mem a hb))]

/-- A filter whose predicate fails on every member selects nothing. -/
theorem filter_eq_nil_of_all_neg (p : α → Bool) (l : List α)
    (h : ∀ a ∈ l, p a = false) : l.filter p = [] := by
  induction l with
  | nil => rfl
  | cons a l ih =>
    rw [List.filter_cons, if_neg (by simp [h a (List.mem_cons_self a l)])]
    exact ih (fun b hb => h b (List.mem_cons_of_mem a hb))

/-- A filter whose predicate holds on every member selects everything. -/
theorem filter_eq_self_of_all_pos (p : α → Bool) (l : List α)
    (h : ∀ a ∈ l, p a = true) : l.filter p = l := by
  induction l with
  | nil => rfl
  | cons a l ih =>
    rw [List.filter_cons, if_pos (h a (List.mem_cons_self a l)),
      ih (fun b hb => h b (List.mem_cons_of_mem a hb))]

end ListLemmas

namespace Clinic
/-- The status write of an existing prescription is what a later lookup reads back. -/
theorem findPrescription_setStatusRow_self (db : DB) (pid : Nat) (st : PrescriptionStatus) :
    findPrescription (setPrescriptionStatusRow db pid st) pid
      = (findPrescription db pid).map (fun p => { p with status := st }) :=
  find?_map_upd_self (fun p : Prescription => p.id)
    (fun p => { p with status := st }) (fun _ => rfl) pid db.prescriptions

/-- The quantity write of an existing item is what a later lookup reads back. -/
theorem findPrescriptionItem_setItemFilledRow_self (db : DB) (itemId : Nat) (newQ : Int) :
    findPrescriptionItem (setItemFilledRow db itemId newQ) itemId
      = (findPrescriptionItem db itemId).map
          (fun it => { it with quantity_filled := newQ }) :=
  find?_map_upd_self (fun it : PrescriptionItem => it.id)
    (fun it => { it with quantity_filled := newQ }) (fun _ => rfl) itemId
    db.prescriptionItems

/-- The quantity write keeps each item attached to its prescription. -/
theorem itemsOfPrescription_setItemFilledRow (db : DB) (itemId : Nat) (newQ : Int)
    (pid : Nat) :
    itemsOfPrescription (setItemFilledRow db itemId newQ) pid
      = (itemsOfPrescription db pid).map (fun it =>
          if it.id == itemId then { it with quantity_filled := newQ } else it) :=
  filter_map_comm _ _ (fun a => by cases h : (a.id == itemId) <;> simp [h]) _

/-- `fillPrescriptionItem` on an absent item id: `NotFound`, store untouched. -/
theorem fillPrescriptionItem_notFound (db : DB) (itemId : Nat) (q : Int)
    (h : findPrescriptionItem db itemId = none) :
    fillPrescriptionItem itemId q db = (Except.error (Err.itemNotFound itemId), db) := by
  unfold fillPrescriptionItem
  rw [h]

/-- `fillPrescriptionItem` rejecting an overfill: the error carries the prescribed,
already-filled and attempted quantities and the store is untouched. -/
theorem fillPrescriptionItem_overfill (db : DB) (itemId : Nat) (q : Int)
    (item : PrescriptionItem)
    (hfind : findPrescriptionItem db itemId = some item)
    (hover : item.quantity_prescribed < item.quantity_filled + q) :
    fillPrescriptionItem itemId q db =
      (Except.error (Err.overfill item.quantity_prescribed item.quantity_filled q),
        db) := by
  simp only [fillPrescriptionItem, hfind, if_pos hover]

/-- `fillPrescriptionItem` on an existing item with no overfill: the updated item
is returned and the store gets the item write then the status write. -/
theorem fillPrescriptionItem_ok (db : DB) (itemId : Nat) (q : Int)
    (item : PrescriptionItem)
    (hfind : findPrescriptionItem db itemId = some item)
    (hle : item.quantity_filled + q ≤ item.quantity_prescribed) :
    fillPrescriptionItem itemId q db =
      (Except.ok { item with quantity_filled := item.quantity_filled + q },
        setPrescriptionStatusRow
          (setItemFilledRow db itemId (item.quantity_filled + q))
          item.prescription_id
          (fillStatusScan itemId (item.quantity_filled + q)
            (itemsOfPrescription
              (setItemFilledRow db itemId (item.quantity_filled + q))
              item.prescription_id))) := by
  simp only [fillPrescriptionItem, hfind, if_neg (not_lt.mpr hle)]


end Clinic

namespace Clinic
/-- On a table where every row bearing the filled item's id already carries the
new quantity and every row respects the fill bound, the source's status scan
computes exactly the spec's derived status. -/
theorem fillStatusScan_eq_derivedStatus (itemId : Nat) (newQ : Int)
    (L : List PrescriptionItem)
    (hsub : ∀ it ∈ L, it.id = itemId → it.quantity_filled = newQ)
    (hinv : ∀ it ∈ L, it.quantity_filled ≤ it.quantity_prescribed) :
    fillStatusScan itemId newQ L = derivedStatus L := by
  have hsubst : ∀ it ∈ L,
      (if it.id == itemId then newQ else it.quantity_filled) = it.quantity_filled := by
    intro it hit
    by_cases h : it.id = itemId
    · rw [if_pos (beq_iff_eq.mpr h), hsub it hit h]
    · rw [if_neg (by simp [h])]
  unfold fillStatusScan derivedStatus
  have hall : (L.all (fun it =>
        decide (it.quantity_prescribed ≤
          (if it.id == itemId then newQ else it.quantity_filled))))
      = L.all (fun it => it.quantity_filled == it.quantity_prescribed) := by
    apply all_congr_mem
    intro a ha
    rw [hsubst a ha]
    have h1 := hinv a ha
    by_cases h2 : a.quantity_filled = a.quantity_prescribed
    · simp [h2]
    · have h3 : ¬ a.quantity_prescribed ≤ a.quantity_filled := by omega
      simp [h2, h3]
  have hany : (L.any (fun it =>
        decide (0 < (if it.id == itemId then newQ else it.quantity_filled))))
      = L.any (fun it => decide (0 < it.quantity_filled)) := by
    apply any_congr_mem
    intro a ha
    rw [hsubst a ha]
  rw [hall, hany]

/-- A successful fill leaves the owning prescription's stored status equal to
the derived status of its items, whatever status was stored before. -/
theorem fill_resync (db : DB) (itemId : Nat) (q : Int)
    (item : PrescriptionItem) (pr : Prescription)
    (hfind : findPrescriptionItem db itemId = some item)
    (hle : item.quantity_filled + q ≤ item.quantity_prescribed)
    (hnodup : (db.prescriptionItems.map (fun it => it.id)).Nodup)
    (hinv : ∀ it ∈ itemsOfPrescription db item.prescription_id,
        it.quantity_filled ≤ it.quantity_prescribed)
    (hpr : findPrescription db item.prescription_id = some pr) :
    ∃ db', fillPrescriptionItem itemId q db =
        (Except.ok { item with quantity_filled := item.quantity_filled + q }, db')
      ∧ (findPrescription db' item.prescription_id).map Prescription.status
          = some (derivedStatus (itemsOfPrescription db' item.prescription_id)) := by
  have hfind' : db.prescriptionItems.find? (fun it => it.id == itemId) = some item :=
    hfind
  have hmem : item ∈ db.prescriptionItems := List.mem_of_find?_eq_some hfind'
  have hid : item.id = itemId := by
    have h := List.find?_some hfind'
    simpa using h
  set newQ := item.quantity_filled + q with hnewQ
  set db1 := setItemFilledRow db itemId newQ with hdb1
  set st := fillStatusScan itemId newQ (itemsOfPrescription db1 item.prescription_id)
    with hst
  refine ⟨setPrescriptionStatusRow db1 item.prescription_id st,
    fillPrescriptionItem_ok db itemId q item hfind hle, ?_⟩
  -- the items of db1 with the filled item's id carry newQ
  have hsub : ∀ it ∈ itemsOfPrescription db1 item.prescription_id,
      it.id = itemId → it.quantity_filled = newQ := by
    intro it hit hitid
    have hit1 : it ∈ db1.prescriptionItems := List.mem_of_mem_filter hit
    rw [hdb1] at hit1
    obtain ⟨it0, h0, rfl⟩ := List.mem_map.mp hit1
    by_cases h : it0.id = itemId
    · rw [if_pos (beq_iff_eq.mpr h)]
    · rw [if_neg (by simp [h])] at hitid ⊢
      exact absurd hitid h
  -- the items of db1 still satisfy the fill invariant
  have hinv1 : ∀ it ∈ itemsOfPrescription db1 item.prescription_id,
      it.quantity_filled ≤ it.quantity_prescribed := by
    intro it hit
    have hit' : it ∈ List.filter (fun x => x.prescription_id == item.prescription_id)
        db1.prescriptionItems := hit
    have hboth := List.mem_filter.mp hit'
    have hit1 : it ∈ db1.prescriptionItems := hboth.1
    have hpidit : (it.prescription_id == item.prescription_id) = true := hboth.2
    rw [hdb1] at hit1
    obtain ⟨it0, h0, rfl⟩ := List.mem_map.mp hit1
    by_cases h : it0.id = itemId
    · have : it0 = item :=
        List.inj_on_of_nodup_map hnodup h0 hmem (by rw [h, hid])
      subst this
      rw [if_pos (beq_iff_eq.mpr h)]
      exact hle
    · rw [if_neg (by simp [h])] at hpidit ⊢
      exact hinv it0 (List.mem_filter.mpr ⟨h0, hpidit⟩)
  have hscan : st = derivedStatus (itemsOfPrescription db1 item.prescription_id) :=
    fillStatusScan_eq_derivedStatus itemId newQ _ hsub hinv1
  have hfindpr : findPrescription (setPrescriptionStatusRow db1 item.prescription_id st)
      item.prescription_id = some { pr with status := st } := by
    rw [findPrescription_setStatusRow_self]
    have : findPrescription db1 item.prescription_id
        = findPrescription db item.prescription_id := rfl
    rw [this, hpr, Option.map_some']
  have hitems : itemsOfPrescription (setPrescriptionStatusRow db1 item.prescription_id st)
      item.prescription_id = itemsOfPrescription db1 item.prescription_id := rfl
  rw [hfindpr, hitems, Option.map_some', hscan]


end Clinic

namespace Clinic
/-- The item/stock loop never touches the prescriptions table. -/
theorem insertItemsLoop_prescriptions (pid : Nat)
    (items : List PrescriptionItemInput) :
    ∀ db : DB, (insertItemsLoop pid items db).prescriptions = db.prescriptions := by
  induction items with
  | nil => intro db; rfl
  | cons item rest ih =>
    intro db
    rw [insertItemsLoop, ih]
    rfl

/-- The item/stock loop appends exactly the rows `mkItems` describes. -/
theorem insertItemsLoop_items (pid : Nat) (items : List PrescriptionItemInput) :
    ∀ db : DB, (insertItemsLoop pid items db).prescriptionItems
      = db.prescriptionItems ++ mkItems pid db.nextItemId items := by
  induction items with
  | nil => intro db; simp [insertItemsLoop, mkItems]
  | cons item rest ih =>
    intro db
    rw [insertItemsLoop, ih]
    simp [mkItems, decrementStock]

/-- What one stock decrement does to each medicine's stock. -/
theorem stockOf_decrementStock (db : DB) (mid0 : Nat) (q : Int) (mid : Nat) :
    stockOf (decrementStock db mid0 q) mid =
      if mid0 = mid then (stockOf db mid).map (fun s => s - q)
      else stockOf db mid := by
  by_cases h : mid0 = mid
  · subst h
    rw [if_pos rfl]
    show ((db.medicines.map fun m =>
        if m.id == mid0 then { m with stock_quantity := m.stock_quantity - q }
        else m).find? (fun m => m.id == mid0)).map Medicine.stock_quantity
      = ((db.medicines.find? (fun m => m.id == mid0)).map Medicine.stock_quantity).map
          (fun s => s - q)
    rw [find?_map_upd_self (fun m : Medicine => m.id)
      (fun m => { m with stock_quantity := m.stock_quantity - q }) (fun _ => rfl)
      mid0 db.medicines]
    cases db.medicines.find? (fun m => m.id == mid0) <;> rfl
  · rw [if_neg h]
    show ((db.medicines.map fun m =>
        if m.id == mid0 then { m with stock_quantity := m.stock_quantity - q }
        else m).find? (fun m => m.id == mid)).map Medicine.stock_quantity
      = (db.medicines.find? (fun m => m.id == mid)).map Medicine.stock_quantity
    rw [find?_map_upd_other (fun m : Medicine => m.id)
      (fun m => { m with stock_quantity := m.stock_quantity - q }) (fun _ => rfl)
      mid0 mid (fun e => h e.symm) db.medicines]

/-- Inserting an item row touches no medicine stock. -/
theorem stockOf_insert_preserved (db : DB) (l : List PrescriptionItem) (n : Nat)
    (mid : Nat) :
    stockOf { db with prescriptionItems := l, nextItemId := n } mid
      = stockOf db mid := rfl

/-- The loop decrements each medicine by the total prescribed across the
input's items. -/
theorem insertItemsLoop_stock (pid : Nat) (items : List PrescriptionItemInput) :
    ∀ (db : DB) (mid : Nat) (s : Int), stockOf db mid = some s →
      stockOf (insertItemsLoop pid items db) mid
        = some (s - totalPrescribed mid items) := by
  induction items with
  | nil =>
    intro db mid s hs
    simpa [insertItemsLoop, totalPrescribed] using hs
  | cons item rest ih =>
    intro db mid s hs
    simp only [insertItemsLoop]
    by_cases h : item.medicine_id = mid
    · rw [ih _ mid (s - item.quantity_prescribed)
        (by rw [stockOf_decrementStock, if_pos h, stockOf_insert_preserved, hs]; rfl)]
      rw [totalPrescribed, if_pos (beq_iff_eq.mpr h)]
      congr 1
      ring
    · rw [ih _ mid s
        (by rw [stockOf_decrementStock, if_neg h, stockOf_insert_preserved, hs])]
      rw [totalPrescribed, if_neg (by simp [h])]
      congr 1
      ring


/-- The validation loop passes exactly when every item's medicine exists with
enough stock for that item alone. -/
theorem checkItems_eq_none_iff (db : DB) (items : List PrescriptionItemInput) :
    checkItems db items = none ↔
      ∀ it ∈ items, ∃ m, findMedicine db it.medicine_id = some m ∧
        it.quantity_prescribed ≤ m.stock_quantity := by
  induction items with
  | nil => simp [checkItems]
  | cons it rest ih =>
    cases hm : findMedicine db it.medicine_id with
    | none => simp [checkItems, List.forall_mem_cons, hm]
    | some m =>
      simp only [checkItems, hm]
      by_cases hs : m.stock_quantity < it.quantity_prescribed
      · rw [if_pos hs]
        simp only [List.forall_mem_cons, hm]
        constructor
        · intro h; exact absurd h (by simp)
        · rintro ⟨⟨m', hm', hq⟩, -⟩
          cases hm'
          omega
      · rw [if_neg hs, ih]
        simp only [List.forall_mem_cons, hm]
        constructor
        · intro h
          exact ⟨⟨m, rfl, by omega⟩, h⟩
        · rintro ⟨-, h⟩
          exact h

/-- The validation loop only ever produces not-found or insufficient-stock
errors. -/
theorem checkItems_some_shape (db : DB) (items : List PrescriptionItemInput) :
    ∀ e, checkItems db items = some e → e.isNotFoundOrStock = true := by
  induction items with
  | nil => intro e h; cases h
  | cons it rest ih =>
    intro e h
    cases hm : findMedicine db it.medicine_id with
    | none =>
      simp only [checkItems, hm] at h
      cases h
      rfl
    | some m =>
      simp only [checkItems, hm] at h
      by_cases hs : m.stock_quantity < it.quantity_prescribed
      · rw [if_pos hs] at h
        cases h
        rfl
      · rw [if_neg hs] at h
        exact ih e h

/-- `createPrescription` on an absent patient: `NotFound`, store untouched. -/
theorem createPrescription_patientNotFound (input : CreatePrescriptionInput) (db : DB)
    (hp : findPatient db input.patient_id = none) :
    createPrescription input db =
      (Except.error (Err.patientNotFound input.patient_id), db) := by
  simp only [createPrescription, hp]

/-- `createPrescription` on an absent or non-doctor doctor id: `NotFound`,
store untouched. -/
theorem createPrescription_doctorNotFound (input : CreatePrescriptionInput) (db : DB)
    (hp : (findPatient db input.patient_id).isSome)
    (hd : findDoctor db input.doctor_id = none) :
    createPrescription input db =
      (Except.error (Err.doctorNotFound input.doctor_id), db) := by
  obtain ⟨pa, hpa⟩ := Option.isSome_iff_exists.mp hp
  simp only [createPrescription, hpa, hd]

/-- `createPrescription` when item validation fails: that error, store
untouched. -/
theorem createPrescription_checkFail (input : CreatePrescriptionInput) (db : DB)
    (hp : (findPatient db input.patient_id).isSome)
    (hd : (findDoctor db input.doctor_id).isSome)
    (e : Err) (hc : checkItems db input.items = some e) :
    createPrescription input db = (Except.error e, db) := by
  obtain ⟨pa, hpa⟩ := Option.isSome_iff_exists.mp hp
  obtain ⟨d, hdd⟩ := Option.isSome_iff_exists.mp hd
  simp only [createPrescription, hpa, hdd, hc]

/-- `createPrescription` when all checks pass: the pending prescription is
returned and the store gets the prescription insert then the item/stock
loop. -/
theorem createPrescription_ok (input : CreatePrescriptionInput) (db : DB)
    (hp : (findPatient db input.patient_id).isSome)
    (hd : (findDoctor db input.doctor_id).isSome)
    (hc : checkItems db input.items = none) :
    createPrescription input db =
      (Except.ok (Prescription.mk db.nextPrescriptionId input.patient_id
          input.doctor_id PrescriptionStatus.pending input.notes),
        insertItemsLoop db.nextPrescriptionId input.items
          { db with
              prescriptions := db.prescriptions ++
                [Prescription.mk db.nextPrescriptionId input.patient_id
                  input.doctor_id PrescriptionStatus.pending input.notes],
              nextPrescriptionId := db.nextPrescriptionId + 1 }) := by
  obtain ⟨pa, hpa⟩ := Option.isSome_iff_exists.mp hp
  obtain ⟨d, hdd⟩ := Option.isSome_iff_exists.mp hd
  simp only [createPrescription, hpa, hdd, hc]

/-- The created rows correspond one-to-one, in order, to the requested
items, each zero-filled and attached to the new prescription. -/
theorem mkItems_forall₂ (pid : Nat) :
    ∀ (items : List PrescriptionItemInput) (nid : Nat),
      List.Forall₂ (fun (inp : PrescriptionItemInput) (it : PrescriptionItem) =>
          it.medicine_id = inp.medicine_id ∧
          it.quantity_prescribed = inp.quantity_prescribed ∧
          it.quantity_filled = 0 ∧ it.prescription_id = pid)
        items (mkItems pid nid items) := by
  intro items
  induction items with
  | nil => intro nid; exact List.Forall₂.nil
  | cons it rest ih =>
    intro nid
    exact List.Forall₂.cons ⟨rfl, rfl, rfl, rfl⟩ (ih (nid + 1))

/-- Every created row is zero-filled, attached to the new prescription, and
copies some requested item's prescribed quantity. -/
theorem mkItems_mem (pid : Nat) :
    ∀ (items : List PrescriptionItemInput) (nid : Nat)
      (it : PrescriptionItem), it ∈ mkItems pid nid items →
      it.prescription_id = pid ∧ it.quantity_filled = 0 ∧
        ∃ inp ∈ items, it.quantity_prescribed = inp.quantity_prescribed := by
  intro items
  induction items with
  | nil => intro nid it h; cases h
  | cons x rest ih =>
    intro nid it h
    rw [mkItems] at h
    rcases List.mem_cons.mp h with h1 | h1
    · subst h1
      exact ⟨rfl, rfl, x, List.mem_cons_self x rest, rfl⟩
    · obtain ⟨h2, h3, inp, h4, h5⟩ := ih (nid + 1) it h1
      exact ⟨h2, h3, inp, List.mem_cons_of_mem x h4, h5⟩


end Clinic

namespace Clinic

/-- Removing and re-adding zero to an item's filled quantity is the identity. -/
theorem item_eta (it : PrescriptionItem) :
    ({ it with quantity_filled := it.quantity_filled + 0 }) = it := by
  cases it
  simp

/-- One fill call, successful or not, keeps the tracked item within its bounds
and never decreases its filled quantity when the increment is non-negative. -/
theorem fill_step_tracks_item (db : DB) (itemId : Nat) (q : Int)
    (it : PrescriptionItem)
    (hfind : findPrescriptionItem db itemId = some it)
    (hq : 0 ≤ q) (h0 : 0 ≤ it.quantity_filled)
    (h1 : it.quantity_filled ≤ it.quantity_prescribed) :
    ∃ it2, findPrescriptionItem (fillPrescriptionItem itemId q db).2 itemId = some it2
      ∧ 0 ≤ it2.quantity_filled ∧ it2.quantity_filled ≤ it2.quantity_prescribed
      ∧ it.quantity_filled ≤ it2.quantity_filled := by
  by_cases hover : it.quantity_prescribed < it.quantity_filled + q
  · rw [fillPrescriptionItem_overfill db itemId q it hfind hover]
    exact ⟨it, hfind, h0, h1, le_refl _⟩
  · rw [fillPrescriptionItem_ok db itemId q it hfind (not_lt.mp hover)]
    refine ⟨{ it with quantity_filled := it.quantity_filled + q }, ?_, by simp; omega,
      by simp; omega, by simp; omega⟩
    show findPrescriptionItem
        (setItemFilledRow db itemId (it.quantity_filled + q)) itemId = _
    rw [findPrescriptionItem_setItemFilledRow_self, hfind, Option.map_some']

/-- The derived status of a non-empty list of zero-filled items with positive
prescribed quantities is `pending`. -/
theorem derivedStatus_pending_of_fresh (L : List PrescriptionItem)
    (h0 : ∀ it ∈ L, it.quantity_filled = 0)
    (hpos : ∀ it ∈ L, 0 < it.quantity_prescribed)
    (hne : L ≠ []) : derivedStatus L = PrescriptionStatus.pending := by
  unfold derivedStatus
  have hall : L.all (fun it => it.quantity_filled == it.quantity_prescribed) = false := by
    cases L with
    | nil => exact absurd rfl hne
    | cons a l =>
      rw [List.all_cons]
      have ha0 := h0 a (List.mem_cons_self a l)
      have hap := hpos a (List.mem_cons_self a l)
      have hbeq : (a.quantity_filled == a.quantity_prescribed) = false := by
        rw [beq_eq_false_iff_ne, ha0]
        omega
      rw [hbeq, Bool.false_and]
  have hany : L.any (fun it => decide (0 < it.quantity_filled)) = false := by
    rw [List.any_eq_false]
    intro it hit
    rw [h0 it hit]
    simp
  rw [hall, hany]
  simp

/-- A successful creation leaves the new prescription's stored status equal to
the derived status of its (all zero-filled) items. -/
theorem create_establishes_derived (input : CreatePrescriptionInput) (db : DB)
    (hp : (findPatient db input.patient_id).isSome)
    (hd : (findDoctor db input.doctor_id).isSome)
    (hm : ∀ it ∈ input.items, ∃ m, findMedicine db it.medicine_id = some m ∧
      it.quantity_prescribed ≤ m.stock_quantity)
    (hne : input.items ≠ [])
    (hpos : ∀ it ∈ input.items, 0 < it.quantity_prescribed)
    (hfreshP : ∀ pr ∈ db.prescriptions, pr.id ≠ db.nextPrescriptionId)
    (hfreshI : ∀ it ∈ db.prescriptionItems,
      it.prescription_id ≠ db.nextPrescriptionId) :
    ∃ p db', createPrescription input db = (Except.ok p, db')
      ∧ (findPrescription db' p.id).map Prescription.status
          = some (derivedStatus (itemsOfPrescription db' p.id)) := by
  have hc : checkItems db input.items = none :=
    (checkItems_eq_none_iff db input.items).mpr hm
  rw [createPrescription_ok input db hp hd hc]
  refine ⟨_, _, rfl, ?_⟩
  have hpres :
      (insertItemsLoop db.nextPrescriptionId input.items
        { db with
            prescriptions := db.prescriptions ++
              [Prescription.mk db.nextPrescriptionId input.patient_id
                input.doctor_id PrescriptionStatus.pending input.notes],
            nextPrescriptionId := db.nextPrescriptionId + 1 }).prescriptions
      = db.prescriptions ++
          [Prescription.mk db.nextPrescriptionId input.patient_id
            input.doctor_id PrescriptionStatus.pending input.notes] := by
    rw [insertItemsLoop_prescriptions]
  have hitems :
      (insertItemsLoop db.nextPrescriptionId input.items
        { db with
            prescriptions := db.prescriptions ++
              [Prescription.mk db.nextPrescriptionId input.patient_id
                input.doctor_id PrescriptionStatus.pending input.notes],
            nextPrescriptionId := db.nextPrescriptionId + 1 }).prescriptionItems
      = db.prescriptionItems ++
          mkItems db.nextPrescriptionId db.nextItemId input.items := by
    rw [insertItemsLoop_items]
  have hfindp : findPrescription
      (insertItemsLoop db.nextPrescriptionId input.items
        { db with
            prescriptions := db.prescriptions ++
              [Prescription.mk db.nextPrescriptionId input.patient_id
                input.doctor_id PrescriptionStatus.pending input.notes],
            nextPrescriptionId := db.nextPrescriptionId + 1 })
      db.nextPrescriptionId
      = some (Prescription.mk db.nextPrescriptionId input.patient_id
          input.doctor_id PrescriptionStatus.pending input.notes) := by
    show ((insertItemsLoop _ _ _).prescriptions).find?
        (fun x => x.id == db.nextPrescriptionId) = _
    rw [hpres, find?_append_of_all_neg _ _ _
      (fun x hx => beq_eq_false_iff_ne.mpr (hfreshP x hx))]
    simp [List.find?]
  have hfilter : itemsOfPrescription
      (insertItemsLoop db.nextPrescriptionId input.items
        { db with
            prescriptions := db.prescriptions ++
              [Prescription.mk db.nextPrescriptionId input.patient_id
                input.doctor_id PrescriptionStatus.pending input.notes],
            nextPrescriptionId := db.nextPrescriptionId + 1 })
      db.nextPrescriptionId
      = mkItems db.nextPrescriptionId db.nextItemId input.items := by
    show ((insertItemsLoop _ _ _).prescriptionItems).filter
        (fun it => it.prescription_id == db.nextPrescriptionId) = _
    rw [hitems, List.filter_append,
      filter_eq_nil_of_all_neg _ _
        (fun x hx => beq_eq_false_iff_ne.mpr (hfreshI x hx)),
      filter_eq_self_of_all_pos _ _
        (fun x hx => beq_iff_eq.mpr (mkItems_mem _ _ _ x hx).1),
      List.nil_append]
  rw [hfindp, hfilter, Option.map_some']
  have hder : derivedStatus (mkItems db.nextPrescriptionId db.nextItemId input.items)
      = PrescriptionStatus.pending := by
    apply derivedStatus_pending_of_fresh
    · exact fun it hit => (mkItems_mem _ _ _ it hit).2.1
    · intro it hit
      obtain ⟨-, -, inp, hinp, hq⟩ := mkItems_mem _ _ _ it hit
      rw [hq]
      exact hpos inp hinp
    · cases hitems2 : input.items with
      | nil => exact absurd hitems2 hne
      | cons x rest => rw [mkItems]; exact List.cons_ne_nil _ _
  rw [hder]

/-- C1: for every creation input whose patient exists, whose doctor id names a
user with the doctor role, and whose every item's medicine exists with stock at
least the requested quantity, `createPrescription` succeeds; the created
prescription is `pending`, exactly one zero-filled item row per requested item
is appended (matching medicine and quantity, attached to the new
prescription), and every medicine's stock drops by the total prescribed for it
across the input's items. -/
theorem C1_valid_creation_succeeds (input : CreatePrescriptionInput) (db : DB)
    (hp : (findPatient db input.patient_id).isSome)
    (hd : (findDoctor db input.doctor_id).isSome)
    (hm : ∀ it ∈ input.items, ∃ m, findMedicine db it.medicine_id = some m ∧
      it.quantity_prescribed ≤ m.stock_quantity) :
    ∃ p db', createPrescription input db = (Except.ok p, db')
      ∧ p.status = PrescriptionStatus.pending
      ∧ db'.prescriptionItems =
          db.prescriptionItems ++ mkItems p.id db.nextItemId input.items
      ∧ List.Forall₂ (fun (inp : PrescriptionItemInput) (it : PrescriptionItem) =>
          it.medicine_id = inp.medicine_id ∧
          it.quantity_prescribed = inp.quantity_prescribed ∧
          it.quantity_filled = 0 ∧ it.prescription_id = p.id)
          input.items (mkItems p.id db.nextItemId input.items)
      ∧ ∀ mid s, stockOf db mid = some s →
          stockOf db' mid = some (s - totalPrescribed mid input.items) := by
  have hc : checkItems db input.items = none :=
    (checkItems_eq_none_iff db input.items).mpr hm
  rw [createPrescription_ok input db hp hd hc]
  refine ⟨_, _, rfl, rfl, ?_, mkItems_forall₂ _ _ _, ?_⟩
  · rw [insertItemsLoop_items]
  · intro mid s hs
    exact insertItemsLoop_stock _ _ _ mid s hs

/-- Witness for C1 at Scenario A's input. -/
theorem C1_witness :
    ∃ p db', createPrescription sampleInput sampleDB = (Except.ok p, db')
      ∧ p.status = PrescriptionStatus.pending
      ∧ db'.prescriptionItems =
          sampleDB.prescriptionItems ++ mkItems p.id sampleDB.nextItemId sampleInput.items
      ∧ List.Forall₂ (fun (inp : PrescriptionItemInput) (it : PrescriptionItem) =>
          it.medicine_id = inp.medicine_id ∧
          it.quantity_prescribed = inp.quantity_prescribed ∧
          it.quantity_filled = 0 ∧ it.prescription_id = p.id)
          sampleInput.items (mkItems p.id sampleDB.nextItemId sampleInput.items)
      ∧ ∀ mid s, stockOf sampleDB mid = some s →
          stockOf db' mid = some (s - totalPrescribed mid sampleInput.items) :=
  C1_valid_creation_succeeds sampleInput sampleDB (by decide) (by decide)
    ((checkItems_eq_none_iff sampleDB sampleInput.items).mp rfl)

/-- C2: a creation input containing an item whose medicine is absent or whose
requested quantity exceeds that medicine's stock fails with a
not-found/insufficient-stock error, and atomically: the store comes back
exactly unchanged (all stock checks precede any mutation). -/
theorem C2_insufficient_stock_fails_atomically
    (input : CreatePrescriptionInput) (db : DB)
    (h : ∃ it ∈ input.items, ∀ m, findMedicine db it.medicine_id = some m →
      m.stock_quantity < it.quantity_prescribed) :
    ∃ e, createPrescription input db = (Except.error e, db) ∧
      e.isNotFoundOrStock = true := by
  cases hp : findPatient db input.patient_id with
  | none => exact ⟨_, createPrescription_patientNotFound input db hp, rfl⟩
  | some pa =>
    cases hd : findDoctor db input.doctor_id with
    | none =>
      exact ⟨_, createPrescription_doctorNotFound input db (by rw [hp]; rfl) hd, rfl⟩
    | some d =>
      cases hc : checkItems db input.items with
      | none =>
        exfalso
        obtain ⟨it, hit, hbad⟩ := h
        obtain ⟨m, hm, hq⟩ := (checkItems_eq_none_iff db input.items).mp hc it hit
        exact absurd hq (not_le.mpr (hbad m hm))
      | some e =>
        exact ⟨e,
          createPrescription_checkFail input db (by rw [hp]; rfl) (by rw [hd]; rfl) e hc,
          checkItems_some_shape db input.items e hc⟩

/-- Witness for C2 at Scenario E's over-stock request. -/
theorem C2_witness :
    ∃ e, createPrescription badStockInput sampleDB = (Except.error e, sampleDB) ∧
      e.isNotFoundOrStock = true :=
  C2_insufficient_stock_fails_atomically badStockInput sampleDB
    ⟨⟨1, 200, none⟩, by decide, fun m hm => by
      have h2 : (⟨1, 100⟩ : Medicine) = m := Option.some.inj hm
      rw [← h2]
      decide⟩

/-- C3: evaluating `createPrescription` at a store with stock 100 of
medicine 1 and an input requesting 60 of it twice: the call is accepted and
leaves `stock_quantity = -20 < 0`, violating the never-negative invariant. -/
theorem C3_duplicate_medicine_negative_stock :
    (createPrescription dupInput sampleDB).1
        = Except.ok (Prescription.mk 1 1 2 PrescriptionStatus.pending none)
    ∧ stockOf (createPrescription dupInput sampleDB).2 1 = some (-20)
    ∧ ¬ ((0 : Int) ≤ -20) :=
  ⟨rfl, rfl, by decide⟩

/-- C4 counterexample: from a synchronized pending state, the exposed
operation `updatePrescriptionStatus` sets the stored status to `filled` while
the item-derived status stays `pending`, so the equality is not preserved by
every exposed operation. -/
theorem C4_status_override_desyncs :
    (updatePrescriptionStatus ⟨1, PrescriptionStatus.filled⟩ pendingDB).1
        = Except.ok (Prescription.mk 1 1 2 PrescriptionStatus.filled none)
    ∧ (findPrescription
        (updatePrescriptionStatus ⟨1, PrescriptionStatus.filled⟩ pendingDB).2 1).map
          Prescription.status = some PrescriptionStatus.filled
    ∧ derivedStatus (itemsOfPrescription
        (updatePrescriptionStatus ⟨1, PrescriptionStatus.filled⟩ pendingDB).2 1)
        = PrescriptionStatus.pending
    ∧ PrescriptionStatus.filled ≠ PrescriptionStatus.pending :=
  ⟨rfl, rfl, rfl, by decide⟩

/-- C4 amended: the stored-status/derived-status equality is established by
`createPrescription` and re-established by every successful
`fillPrescriptionItem`; only `updatePrescriptionStatus` bypasses it. -/
theorem C4_amended_status_matches_items (input : CreatePrescriptionInput)
    (db dbf : DB) (itemId : Nat) (q : Int) (item : PrescriptionItem)
    (pr : Prescription) :
    ((findPatient db input.patient_id).isSome →
      (findDoctor db input.doctor_id).isSome →
      (∀ it ∈ input.items, ∃ m, findMedicine db it.medicine_id = some m ∧
        it.quantity_prescribed ≤ m.stock_quantity) →
      input.items ≠ [] →
      (∀ it ∈ input.items, 0 < it.quantity_prescribed) →
      (∀ pr0 ∈ db.prescriptions, pr0.id ≠ db.nextPrescriptionId) →
      (∀ it ∈ db.prescriptionItems,
        it.prescription_id ≠ db.nextPrescriptionId) →
      ∃ p db', createPrescription input db = (Except.ok p, db')
        ∧ (findPrescription db' p.id).map Prescription.status
            = some (derivedStatus (itemsOfPrescription db' p.id))) ∧
    (findPrescriptionItem dbf itemId = some item →
      item.quantity_filled + q ≤ item.quantity_prescribed →
      (dbf.prescriptionItems.map (fun it => it.id)).Nodup →
      (∀ it ∈ itemsOfPrescription dbf item.prescription_id,
        it.quantity_filled ≤ it.quantity_prescribed) →
      findPrescription dbf item.prescription_id = some pr →
      ∃ db', fillPrescriptionItem itemId q dbf =
          (Except.ok { item with quantity_filled := item.quantity_filled + q }, db')
        ∧ (findPrescription db' item.prescription_id).map Prescription.status
            = some (derivedStatus (itemsOfPrescription db' item.prescription_id))) :=
  ⟨fun hp hd hm hne hpos hfp hfi =>
    create_establishes_derived input db hp hd hm hne hpos hfp hfi,
   fun hfind hle hnodup hinv hpr =>
    fill_resync dbf itemId q item pr hfind hle hnodup hinv hpr⟩

/-- Witness for amended C4 at Scenario A's creation and one fill. -/
theorem C4_amended_witness :
    (∃ p db', createPrescription sampleInput sampleDB = (Except.ok p, db')
      ∧ (findPrescription db' p.id).map Prescription.status
          = some (derivedStatus (itemsOfPrescription db' p.id))) ∧
    (∃ db', fillPrescriptionItem 1 5 sampleFilledDB =
        (Except.ok (PrescriptionItem.mk 1 1 1 10 5 none), db')
      ∧ (findPrescription db' 1).map Prescription.status
          = some (derivedStatus (itemsOfPrescription db' 1))) :=
  ⟨(C4_amended_status_matches_items sampleInput sampleDB sampleFilledDB 1 5
      ⟨1, 1, 1, 10, 0, none⟩ ⟨1, 1, 2, PrescriptionStatus.pending, none⟩).1
      (by decide) (by decide)
      ((checkItems_eq_none_iff sampleDB sampleInput.items).mp rfl)
      (by decide) (by decide) (by decide) (by decide),
   (C4_amended_status_matches_items sampleInput sampleDB sampleFilledDB 1 5
      ⟨1, 1, 1, 10, 0, none⟩ ⟨1, 1, 2, PrescriptionStatus.pending, none⟩).2
      rfl (by decide) (by decide) (by decide) rfl⟩

/-- C5: filling an existing item by more than the remaining quantity fails
with the overfill error carrying the prescribed, already-filled and attempted
quantities, and the store comes back exactly unchanged. -/
theorem C5_overfill_rejected (db : DB) (itemId : Nat) (q : Int)
    (item : PrescriptionItem)
    (hfind : findPrescriptionItem db itemId = some item)
    (hover : item.quantity_prescribed < item.quantity_filled + q) :
    fillPrescriptionItem itemId q db =
      (Except.error (Err.overfill item.quantity_prescribed item.quantity_filled q),
        db) :=
  fillPrescriptionItem_overfill db itemId q item hfind hover

/-- Witness for C5 at Scenario D's over-ask. -/
theorem C5_witness :
    fillPrescriptionItem 1 15 sampleFilledDB =
      (Except.error (Err.overfill 10 0 15), sampleFilledDB) :=
  C5_overfill_rejected sampleFilledDB 1 15 ⟨1, 1, 1, 10, 0, none⟩ rfl (by decide)

/-- C6 counterexample: a fill with increment -1 on a fresh item succeeds and
drives `quantity_filled` to -1, breaking the claimed lower bound and
monotonicity for arbitrary-sign increments. -/
theorem C6_negative_increment_counterexample :
    (fillPrescriptionItem 1 (-1) pendingDB).1
        = Except.ok (PrescriptionItem.mk 1 1 1 5 (-1) none)
    ∧ (findPrescriptionItem (fillPrescriptionItem 1 (-1) pendingDB).2 1).map
        PrescriptionItem.quantity_filled = some (-1)
    ∧ ¬ ((0 : Int) ≤ -1) :=
  ⟨rfl, rfl, by decide⟩

/-- C6 amended: over any sequence of fill calls with non-negative increments,
an item within its bounds stays within `0 ≤ quantity_filled ≤
quantity_prescribed` and its filled quantity never decreases. -/
theorem C6_nonneg_fills_bounded_monotone (itemId : Nat) (qs : List Int) :
    ∀ (db : DB) (it : PrescriptionItem),
      (∀ q ∈ qs, 0 ≤ q) →
      findPrescriptionItem db itemId = some it →
      0 ≤ it.quantity_filled → it.quantity_filled ≤ it.quantity_prescribed →
      ∃ it', findPrescriptionItem (runFills itemId qs db) itemId = some it'
        ∧ 0 ≤ it'.quantity_filled ∧ it'.quantity_filled ≤ it'.quantity_prescribed
        ∧ it.quantity_filled ≤ it'.quantity_filled := by
  induction qs with
  | nil =>
    intro db it hq hfind h0 h1
    exact ⟨it, hfind, h0, h1, le_refl _⟩
  | cons q qs ih =>
    intro db it hq hfind h0 h1
    rw [runFills]
    obtain ⟨it2, hfind2, h02, h12, hmono⟩ :=
      fill_step_tracks_item db itemId q it hfind (hq q (List.mem_cons_self q qs)) h0 h1
    obtain ⟨it', hfind', h0', h1', hmono'⟩ :=
      ih _ it2 (fun x hx => hq x (List.mem_cons_of_mem q hx)) hfind2 h02 h12
    exact ⟨it', hfind', h0', h1', le_trans hmono hmono'⟩

/-- Witness for amended C6 over two fills. -/
theorem C6_witness :
    ∃ it', findPrescriptionItem (runFills 1 [3, 2] sampleFilledDB) 1 = some it'
      ∧ 0 ≤ it'.quantity_filled ∧ it'.quantity_filled ≤ it'.quantity_prescribed
      ∧ (0 : Int) ≤ it'.quantity_filled :=
  C6_nonneg_fills_bounded_monotone 1 [3, 2] sampleFilledDB ⟨1, 1, 1, 10, 0, none⟩
    (by decide) rfl (by decide) (by decide)

/-- C7: filling an existing, in-bounds item by 0 succeeds, returns the item
unchanged, leaves every item row unchanged, and leaves every prescription's
derived status unchanged. -/
theorem C7_fill_zero_is_noop (db : DB) (itemId : Nat) (item : PrescriptionItem)
    (hfind : findPrescriptionItem db itemId = some item)
    (hle : item.quantity_filled ≤ item.quantity_prescribed)
    (hnodup : (db.prescriptionItems.map (fun it => it.id)).Nodup) :
    ∃ db', fillPrescriptionItem itemId 0 db = (Except.ok item, db')
      ∧ db'.prescriptionItems = db.prescriptionItems
      ∧ ∀ pid, derivedStatus (itemsOfPrescription db' pid)
          = derivedStatus (itemsOfPrescription db pid) := by
  have hfind' : db.prescriptionItems.find? (fun it => it.id == itemId) = some item :=
    hfind
  have hmem : item ∈ db.prescriptionItems := List.mem_of_find?_eq_some hfind'
  have hid : item.id = itemId := by
    have h := List.find?_some hfind'
    simpa using h
  have hok := fillPrescriptionItem_ok db itemId 0 item hfind (by omega)
  rw [item_eta] at hok
  have hitems :
      (setItemFilledRow db itemId (item.quantity_filled + 0)).prescriptionItems
        = db.prescriptionItems := by
    show db.prescriptionItems.map _ = db.prescriptionItems
    apply map_eq_self_of_mem
    intro it0 h0
    by_cases h : it0.id = itemId
    · have : it0 = item :=
        List.inj_on_of_nodup_map hnodup h0 hmem (by rw [h, hid])
      subst this
      rw [if_pos (beq_iff_eq.mpr h)]
      exact item_eta it0
    · rw [if_neg (by simp [h])]
  refine ⟨_, hok, ?_, ?_⟩
  · show (setItemFilledRow db itemId (item.quantity_filled + 0)).prescriptionItems
        = db.prescriptionItems
    exact hitems
  · intro pid
    show derivedStatus
        ((setItemFilledRow db itemId (item.quantity_filled + 0)).prescriptionItems.filter
          (fun it => it.prescription_id == pid))
      = derivedStatus (db.prescriptionItems.filter (fun it => it.prescription_id == pid))
    rw [hitems]

/-- Witness for C7 at Scenario A's first item. -/
theorem C7_witness :
    ∃ db', fillPrescriptionItem 1 0 sampleFilledDB =
        (Except.ok (PrescriptionItem.mk 1 1 1 10 0 none), db')
      ∧ db'.prescriptionItems = sampleFilledDB.prescriptionItems
      ∧ ∀ pid, derivedStatus (itemsOfPrescription db' pid)
          = derivedStatus (itemsOfPrescription sampleFilledDB pid) :=
  C7_fill_zero_is_noop sampleFilledDB 1 ⟨1, 1, 1, 10, 0, none⟩ rfl (by decide)
    (by decide)

/-- C8: `createPrescription` fails with `NotFound` for an absent patient, and
with the doctor `NotFound` failure when no user holds the doctor's id with the
doctor role; both failures return the store exactly unchanged, before any
stock check or mutation. -/
theorem C8_identity_checks_precede_mutation
    (input : CreatePrescriptionInput) (db : DB) :
    (findPatient db input.patient_id = none →
      createPrescription input db =
        (Except.error (Err.patientNotFound input.patient_id), db)) ∧
    ((findPatient db input.patient_id).isSome →
      (∀ u ∈ db.users, u.id = input.doctor_id → u.role ≠ Role.doctor) →
      createPrescription input db =
        (Except.error (Err.doctorNotFound input.doctor_id), db)) := by
  constructor
  · exact createPrescription_patientNotFound input db
  · intro hp hno
    apply createPrescription_doctorNotFound input db hp
    have : ∀ u ∈ db.users, ¬ ((u.id == input.doctor_id && u.role == Role.doctor) = true) := by
      intro u hu hcontra
      rw [Bool.and_eq_true, beq_iff_eq, beq_iff_eq] at hcontra
      exact hno u hu hcontra.1 hcontra.2
    exact List.find?_eq_none.mpr this

/-- Witness for C8: an absent patient and a cashier in the doctor slot. -/
theorem C8_witness :
    createPrescription noPatientInput sampleDB =
      (Except.error (Err.patientNotFound 99), sampleDB) ∧
    createPrescription cashierDoctorInput sampleDB =
      (Except.error (Err.doctorNotFound 3), sampleDB) :=
  ⟨(C8_identity_checks_precede_mutation noPatientInput sampleDB).1 rfl,
   (C8_identity_checks_precede_mutation cashierDoctorInput sampleDB).2 (by decide)
     (by decide)⟩

/-- C9: for an id with no matching row, the read-only `getPrescriptionById`
returns `none`, while the mutations `updatePrescriptionStatus` and
`fillPrescriptionItem` fail with their `NotFound` errors. -/
theorem C9_lookup_null_mutation_error (db : DB) (pid iid : Nat)
    (st : PrescriptionStatus) (q : Int) :
    (findPrescription db pid = none → getPrescriptionById pid db = none) ∧
    (findPrescription db pid = none →
      updatePrescriptionStatus ⟨pid, st⟩ db =
        (Except.error (Err.prescriptionNotFound pid), db)) ∧
    (findPrescriptionItem db iid = none →
      fillPrescriptionItem iid q db = (Except.error (Err.itemNotFound iid), db)) := by
  refine ⟨?_, ?_, fillPrescriptionItem_notFound db iid q⟩
  · intro h
    unfold getPrescriptionById
    rw [h]
  · intro h
    have h' : db.prescriptions.find? (fun p => p.id == pid) = none := h
    have hnone : ∀ p ∈ db.prescriptions, (p.id == pid) = false := by
      intro p hp
      have := List.find?_eq_none.mp h' p hp
      simpa using this
    have hrow : setPrescriptionStatusRow db pid st = db := by
      unfold setPrescriptionStatusRow
      rw [map_eq_self_of_mem _ _ (fun p hp => by rw [if_neg (by simp [hnone p hp])])]
    have hfilter : db.prescriptions.filter (fun p => p.id == pid) = [] :=
      filter_eq_nil_of_all_neg _ _ hnone
    show updatePrescriptionStatus ⟨pid, st⟩ db = _
    unfold updatePrescriptionStatus
    simp only [hrow, hfilter]

/-- Witness for C9 at the absent id 99. -/
theorem C9_witness :
    (getPrescriptionById 99 sampleFilledDB = none) ∧
    (updatePrescriptionStatus ⟨99, PrescriptionStatus.filled⟩ sampleFilledDB =
      (Except.error (Err.prescriptionNotFound 99), sampleFilledDB)) ∧
    (fillPrescriptionItem 99 5 sampleFilledDB =
      (Except.error (Err.itemNotFound 99), sampleFilledDB)) :=
  ⟨(C9_lookup_null_mutation_error sampleFilledDB 99 99 PrescriptionStatus.filled 5).1 rfl,
   (C9_lookup_null_mutation_error sampleFilledDB 99 99 PrescriptionStatus.filled 5).2.1 rfl,
   (C9_lookup_null_mutation_error sampleFilledDB 99 99 PrescriptionStatus.filled 5).2.2 rfl⟩

/-- C10: after every single successful fill the owning prescription's stored
status equals the status derived from the items' post-call fill values,
whatever status was stored before the call. -/
theorem C10_successful_fill_syncs_status (db : DB) (itemId : Nat) (q : Int)
    (item : PrescriptionItem) (pr : Prescription)
    (hfind : findPrescriptionItem db itemId = some item)
    (hle : item.quantity_filled + q ≤ item.quantity_prescribed)
    (hnodup : (db.prescriptionItems.map (fun it => it.id)).Nodup)
    (hinv : ∀ it ∈ itemsOfPrescription db item.prescription_id,
        it.quantity_filled ≤ it.quantity_prescribed)
    (hpr : findPrescription db item.prescription_id = some pr) :
    ∃ db', fillPrescriptionItem itemId q db =
        (Except.ok { item with quantity_filled := item.quantity_filled + q }, db')
      ∧ (findPrescription db' item.prescription_id).map Prescription.status
          = some (derivedStatus (itemsOfPrescription db' item.prescription_id)) :=
  fill_resync db itemId q item pr hfind hle hnodup hinv hpr

/-- Witness for C10 at Scenario A's first item. -/
theorem C10_witness :
    ∃ db', fillPrescriptionItem 1 5 sampleFilledDB =
        (Except.ok (PrescriptionItem.mk 1 1 1 10 5 none), db')
      ∧ (findPrescription db' 1).map Prescription.status
          = some (derivedStatus (itemsOfPrescription db' 1)) :=
  C10_successful_fill_syncs_status sampleFilledDB 1 5 ⟨1, 1, 1, 10, 0, none⟩
    ⟨1, 1, 2, PrescriptionStatus.pending, none⟩ rfl (by decide) (by decide)
    (by decide) rfl

end Clinic
